import Mathlib

/-!
Verification of the revenue-bridge engine of `src/main.py`
(`calculate_revenue_bridge`, lines 476-580).

The engine consumes the grouped per-customer table (`customer_grouped`):
one entry per customer with its summed Q1 (opening) and Q2 (closing)
revenue.  We embed that table as a `List Customer` over exact rationals
(the Python code computes over floats; the spec's identities are stated
"exact over exact arithmetic").

A second layer (`Row`, `grouped`) embeds the aggregation step of lines
484-499: numeric coercion with `fillna(0)`, dropping null/blank customer
ids, and `groupby(...).sum()` (whose group keys pandas returns sorted,
`sort=True` being the default).

The rankings `nlargest(5)` / `nsmallest(5)` (lines 578-579) keep ties in
series order (`keep='first'`), i.e. they are a stable descending
(resp. ascending) sort followed by truncation; we model them with the
stable `List.mergeSort`.
-/

/-- One row of the `customer_grouped` table: a customer id with its
quarterly totals `Q1_Total` and `Q2_Total` (lines 501-503). -/
structure Customer where
  id : String
  q1 : ℚ
  q2 : ℚ
deriving DecidableEq

/-- `opening_revenue = customer_grouped['Q1_Total'].sum()` (line 506). -/
def opening_revenue (l : List Customer) : ℚ :=
  (l.map (fun c => c.q1)).sum

/-- `closing_revenue = customer_grouped['Q2_Total'].sum()` (line 508). -/
def closing_revenue (l : List Customer) : ℚ :=
  (l.map (fun c => c.q2)).sum

/-- `churned_customers = q1_revenue[(q1_revenue > 0) & (q2_revenue == 0)]`,
`churn = -churned_customers.sum()` (lines 515-516). -/
def churn (l : List Customer) : ℚ :=
  -(((l.filter (fun c => decide (0 < c.q1 ∧ c.q2 = 0))).map (fun c => c.q1)).sum)

/-- `new_customers = q2_revenue[(q1_revenue == 0) & (q2_revenue > 0)].sum()`
(lines 519-520). -/
def new_customers (l : List Customer) : ℚ :=
  ((l.filter (fun c => decide (c.q1 = 0 ∧ 0 < c.q2))).map (fun c => c.q2)).sum

/-- `expansion = expansion_data[(expansion_data > 0) & (q1_revenue > 0)].sum()`
where `expansion_data = q2_revenue - q1_revenue` (lines 522-524). -/
def expansion (l : List Customer) : ℚ :=
  ((l.filter (fun c => decide (0 < c.q2 - c.q1 ∧ 0 < c.q1))).map
    (fun c => c.q2 - c.q1)).sum

/-- `contraction = expansion_data[(expansion_data < 0) & (q2_revenue > 0)].sum()`
(line 527). -/
def contraction (l : List Customer) : ℚ :=
  ((l.filter (fun c => decide (c.q2 - c.q1 < 0 ∧ 0 < c.q2))).map
    (fun c => c.q2 - c.q1)).sum

/-- `nrr = (opening + churn + expansion + contraction) / opening if opening != 0 else 0`
(line 530). -/
def nrr (l : List Customer) : ℚ :=
  if opening_revenue l ≠ 0 then
    (opening_revenue l + churn l + expansion l + contraction l) / opening_revenue l
  else 0

/-- `grr = (opening + churn + contraction) / opening if opening != 0 else 0`
(line 531). -/
def grr (l : List Customer) : ℚ :=
  if opening_revenue l ≠ 0 then
    (opening_revenue l + churn l + contraction l) / opening_revenue l
  else 0

/-- `Net_Change = closing_revenue - opening_revenue` (line 566). -/
def net_change (l : List Customer) : ℚ :=
  closing_revenue l - opening_revenue l

/-- The five customer segments produced by `categorize_customer`. -/
inductive Segment where
  | Churned
  | NewCustomer
  | Expansion
  | Contraction
  | Stable
deriving DecidableEq

/-- `categorize_customer` (lines 544-555): priority-ordered if/elif chain over
`Q1_Revenue`, `Q2_Revenue` and `Change = Q2_Revenue - Q1_Revenue`. -/
def categorize_customer (c : Customer) : Segment :=
  if 0 < c.q1 ∧ c.q2 = 0 then .Churned
  else if c.q1 = 0 ∧ 0 < c.q2 then .NewCustomer
  else if 0 < c.q2 - c.q1 ∧ 0 < c.q1 then .Expansion
  else if c.q2 - c.q1 < 0 ∧ 0 < c.q2 then .Contraction
  else .Stable

/-- The classification rules as written in the spec (§4.2), stated on a raw
`(opening, closing)` pair, for comparison with `categorize_customer`. -/
def classify_spec (opening closing : ℚ) : Segment :=
  if 0 < opening ∧ closing = 0 then .Churned
  else if opening = 0 ∧ 0 < closing then .NewCustomer
  else if opening < closing ∧ 0 < opening then .Expansion
  else if closing < opening ∧ 0 < closing then .Contraction
  else .Stable

/-- `Change_Pct` (line 540):
`((Q2-Q1)/Q1*100).replace([inf,-inf], nan).fillna(0)`.  Over floats the
quotient is `±inf` when `Q1 == 0 ≠ Q2` and `NaN` when `Q1 == Q2 == 0`;
both are replaced by `0`, so over exact arithmetic the field is `0`
whenever `Q1 = 0` and the plain percentage otherwise. -/
def change_pct (c : Customer) : ℚ :=
  if c.q1 = 0 then 0 else (c.q2 - c.q1) / c.q1 * 100

/-- Comparison used by `nlargest(5)` on the expansion deltas: descending
by `Change`; pandas keeps ties in series order (`keep='first'`),
i.e. the sort is stable. -/
def expansionGE (c d : Customer) : Bool :=
  decide (d.q2 - d.q1 ≤ c.q2 - c.q1)

/-- Comparison used by `nsmallest(5)` on the contraction deltas: ascending
by `Change`, stable. -/
def contractionLE (c d : Customer) : Bool :=
  decide (c.q2 - c.q1 ≤ d.q2 - d.q1)

/-- `top_expansion_customers = expansion_data[(expansion_data > 0) & (q1_revenue > 0)].nlargest(5)`
(line 578): the expansion rows, stably sorted by descending delta, first 5. -/
def top_expansion_customers (l : List Customer) : List Customer :=
  ((l.filter (fun c => decide (0 < c.q2 - c.q1 ∧ 0 < c.q1))).mergeSort
    expansionGE).take 5

/-- `top_contraction_customers = expansion_data[(expansion_data < 0) & (q2_revenue > 0)].nsmallest(5)`
(line 579): the contraction rows, stably sorted by ascending delta, first 5. -/
def top_contraction_customers (l : List Customer) : List Customer :=
  ((l.filter (fun c => decide (c.q2 - c.q1 < 0 ∧ 0 < c.q2))).mergeSort
    contractionLE).take 5

/-- One raw input row (lines 484-493): an optional customer id (None for a
null cell) and the Q1/Q2 month cells, where `none` stands for a
null/non-numeric cell that `pd.to_numeric(errors='coerce')` turns into NaN. -/
structure Row where
  id : Option String
  q1cells : List (Option ℚ)
  q2cells : List (Option ℚ)
deriving DecidableEq

/-- `pd.to_numeric(errors='coerce').fillna(0)` (line 489): a non-numeric or
missing cell counts as 0. -/
def cellValue (x : Option ℚ) : ℚ := x.getD 0

/-- Rows kept by lines 492-493: `dropna(subset=[customer_column])` followed by
`astype(str).str.strip() != ''`. -/
def validRow (r : Row) : Bool :=
  match r.id with
  | none => false
  | some s => decide (s.trim ≠ "")

/-- The grouping key of a (valid) row. -/
def rowKey (r : Row) : String := r.id.getD ""

/-- A row's Q1 contribution: the sum of its coerced Q1 month cells
(line 502). -/
def rowQ1 (r : Row) : ℚ := (r.q1cells.map cellValue).sum

/-- A row's Q2 contribution (line 503). -/
def rowQ2 (r : Row) : ℚ := (r.q2cells.map cellValue).sum

/-- The distinct customer ids of the kept rows, in sorted order: pandas
`groupby(customer_column)` returns its group keys sorted (`sort=True`
default, line 496). -/
def groupKeys (rows : List Row) : List String :=
  List.insertionSort (· ≤ ·) ((rows.filter validRow).map rowKey).dedup

/-- The summed Q1 total of one customer over all of its kept rows
(`groupby(...).sum()`, line 496). -/
def totalQ1 (rows : List Row) (k : String) : ℚ :=
  (((rows.filter validRow).filter (fun r => decide (rowKey r = k))).map rowQ1).sum

/-- The summed Q2 total of one customer over all of its kept rows. -/
def totalQ2 (rows : List Row) (k : String) : ℚ :=
  (((rows.filter validRow).filter (fun r => decide (rowKey r = k))).map rowQ2).sum

/-- The `customer_grouped` table built from raw rows (lines 496-503): one
entry per distinct kept customer id, with summed quarterly totals. -/
def grouped (rows : List Row) : List Customer :=
  (groupKeys rows).map (fun k => ⟨k, totalQ1 rows k, totalQ2 rows k⟩)

/-- Example A of the spec (§8.5). -/
def exampleA : List Customer :=
  [⟨"A", 100, 0⟩, ⟨"B", 0, 50⟩, ⟨"C", 100, 150⟩, ⟨"D", 100, 80⟩, ⟨"E", 100, 100⟩]

/-- A concrete raw-row input: two rows of customer `acme` (to be summed),
one row with a null id and one with a whitespace-only id (both dropped),
with some non-numeric cells. -/
def exampleRows : List Row :=
  [⟨some "acme", [some 10, none, some 5], [some 7, some 1, none]⟩,
   ⟨some "acme", [some 1, some 2, some 3], [some 4, some 5, some 6]⟩,
   ⟨none, [some 100, some 100, some 100], [some 100, some 100, some 100]⟩,
   ⟨some "  ", [some 50, some 50, some 50], [some 50, some 50, some 50]⟩]

/-- `exampleRows` with its first two rows exchanged. -/
def exampleRowsSwapped : List Row :=
  [⟨some "acme", [some 1, some 2, some 3], [some 4, some 5, some 6]⟩,
   ⟨some "acme", [some 10, none, some 5], [some 7, some 1, none]⟩,
   ⟨none, [some 100, some 100, some 100], [some 100, some 100, some 100]⟩,
   ⟨some "  ", [some 50, some 50, some 50], [some 50, some 50, some 50]⟩]

/-- Opening totals add per customer. -/
theorem opening_cons (c : Customer) (l : List Customer) :
    opening_revenue (c :: l) = c.q1 + opening_revenue l := by
  simp [opening_revenue]

/-- Closing totals add per customer. -/
theorem closing_cons (c : Customer) (l : List Customer) :
    closing_revenue (c :: l) = c.q2 + closing_revenue l := by
  simp [closing_revenue]

/-- Churn unfolds one customer at a time. -/
theorem churn_cons (c : Customer) (l : List Customer) :
    churn (c :: l) = (if 0 < c.q1 ∧ c.q2 = 0 then -c.q1 else 0) + churn l := by
  by_cases h : 0 < c.q1 ∧ c.q2 = 0
  · simp only [churn, List.filter_cons, Bool.and_eq_true, decide_eq_true_eq]
    rw [if_pos h, if_pos h]
    simp only [List.map_cons, List.sum_cons]
    ring
  · simp only [churn, List.filter_cons, Bool.and_eq_true, decide_eq_true_eq]
    rw [if_neg h, if_neg h]
    ring

/-- New-customer revenue unfolds one customer at a time. -/
theorem new_customers_cons (c : Customer) (l : List Customer) :
    new_customers (c :: l) = (if c.q1 = 0 ∧ 0 < c.q2 then c.q2 else 0) + new_customers l := by
  by_cases h : c.q1 = 0 ∧ 0 < c.q2
  · simp only [new_customers, List.filter_cons, Bool.and_eq_true, decide_eq_true_eq]
    rw [if_pos h, if_pos h]
    simp only [List.map_cons, List.sum_cons]
  · simp only [new_customers, List.filter_cons, Bool.and_eq_true, decide_eq_true_eq]
    rw [if_neg h, if_neg h]
    ring

/-- Expansion unfolds one customer at a time. -/
theorem expansion_cons (c : Customer) (l : List Customer) :
    expansion (c :: l) =
      (if 0 < c.q2 - c.q1 ∧ 0 < c.q1 then c.q2 - c.q1 else 0) + expansion l := by
  by_cases h : 0 < c.q2 - c.q1 ∧ 0 < c.q1
  · simp only [expansion, List.filter_cons, Bool.and_eq_true, decide_eq_true_eq]
    rw [if_pos h, if_pos h]
    simp only [List.map_cons, List.sum_cons]
  · simp only [expansion, List.filter_cons, Bool.and_eq_true, decide_eq_true_eq]
    rw [if_neg h, if_neg h]
    ring

/-- Contraction unfolds one customer at a time. -/
theorem contraction_cons (c : Customer) (l : List Customer) :
    contraction (c :: l) =
      (if c.q2 - c.q1 < 0 ∧ 0 < c.q2 then c.q2 - c.q1 else 0) + contraction l := by
  by_cases h : c.q2 - c.q1 < 0 ∧ 0 < c.q2
  · simp only [contraction, List.filter_cons, Bool.and_eq_true, decide_eq_true_eq]
    rw [if_pos h, if_pos h]
    simp only [List.map_cons, List.sum_cons]
  · simp only [contraction, List.filter_cons, Bool.and_eq_true, decide_eq_true_eq]
    rw [if_neg h, if_neg h]
    ring

/-- With non-negative revenues, a single customer's four bridge contributions
sum to exactly its revenue delta: the four classification windows tile the
non-negative quadrant. -/
theorem bridge_contrib (c : Customer) (h1 : 0 ≤ c.q1) (h2 : 0 ≤ c.q2) :
    (if 0 < c.q1 ∧ c.q2 = 0 then -c.q1 else 0)
      + (if 0 < c.q2 - c.q1 ∧ 0 < c.q1 then c.q2 - c.q1 else 0)
      + (if c.q2 - c.q1 < 0 ∧ 0 < c.q2 then c.q2 - c.q1 else 0)
      + (if c.q1 = 0 ∧ 0 < c.q2 then c.q2 else 0) = c.q2 - c.q1 := by
  rcases lt_trichotomy (c.q2 - c.q1) 0 with hlt | heq | hgt
  · by_cases hq2 : c.q2 = 0
    · have hq1 : 0 < c.q1 := by rw [hq2] at hlt; linarith
      rw [if_pos ⟨hq1, hq2⟩, if_neg (by rintro ⟨h, -⟩; linarith),
        if_neg (by rintro ⟨-, h⟩; linarith), if_neg (by rintro ⟨h, -⟩; linarith)]
      linarith
    · have hq2' : 0 < c.q2 := lt_of_le_of_ne h2 (Ne.symm hq2)
      have hq1 : 0 < c.q1 := by linarith
      rw [if_neg (by rintro ⟨-, h⟩; exact hq2 h), if_neg (by rintro ⟨h, -⟩; linarith),
        if_pos ⟨hlt, hq2'⟩, if_neg (by rintro ⟨h, -⟩; linarith)]
      linarith
  · rw [if_neg (by rintro ⟨h, h'⟩; linarith), if_neg (by rintro ⟨h, -⟩; linarith),
      if_neg (by rintro ⟨h, -⟩; linarith), if_neg (by rintro ⟨h, h'⟩; linarith)]
    linarith
  · have hq2 : 0 < c.q2 := by linarith
    by_cases hq1 : c.q1 = 0
    · rw [if_neg (by rintro ⟨h, -⟩; linarith), if_neg (by rintro ⟨-, h⟩; linarith),
        if_neg (by rintro ⟨h, -⟩; linarith), if_pos ⟨hq1, hq2⟩]
      linarith
    · have hq1' : 0 < c.q1 := lt_of_le_of_ne h1 (Ne.symm hq1)
      rw [if_neg (by rintro ⟨-, h⟩; linarith), if_pos ⟨hgt, hq1'⟩,
        if_neg (by rintro ⟨h, -⟩; linarith), if_neg (by rintro ⟨h, -⟩; exact hq1 h)]
      linarith

/-- The aggregate bridge identity over any customer list with non-negative
revenues. -/
theorem bridge_identity (l : List Customer) (h : ∀ c ∈ l, 0 ≤ c.q1 ∧ 0 ≤ c.q2) :
    opening_revenue l + churn l + expansion l + contraction l + new_customers l
      = closing_revenue l := by
  induction l with
  | nil =>
    simp [opening_revenue, churn, expansion, contraction, new_customers, closing_revenue]
  | cons c l ih =>
    have hc := h c (List.mem_cons_self c l)
    have hl := fun x hx => h x (List.mem_cons_of_mem c hx)
    have hcontrib := bridge_contrib c hc.1 hc.2
    rw [opening_cons, churn_cons, expansion_cons, contraction_cons, new_customers_cons,
      closing_cons]
    have := ih hl
    linarith

/-- A list of non-positive rationals has non-positive sum. -/
theorem q_sum_nonpos {l : List ℚ} (h : ∀ x ∈ l, x ≤ 0) : l.sum ≤ 0 := by
  induction l with
  | nil => simp
  | cons a t ih =>
    simp only [List.sum_cons]
    have ha := h a (List.mem_cons_self a t)
    have ht := ih (fun x hx => h x (List.mem_cons_of_mem a hx))
    linarith

/-- Churn is never positive: it is the negated sum of strictly positive
opening revenues. -/
theorem churn_nonpos (l : List Customer) : churn l ≤ 0 := by
  unfold churn
  have h : 0 ≤ ((l.filter (fun c => decide (0 < c.q1 ∧ c.q2 = 0))).map
      (fun c => c.q1)).sum := by
    apply List.sum_nonneg
    intro x hx
    rcases List.mem_map.mp hx with ⟨c, hc, rfl⟩
    have hm := (List.mem_filter.mp hc).2
    exact le_of_lt (of_decide_eq_true hm).1
  linarith

/-- Contraction is never positive: it only sums strictly negative deltas. -/
theorem contraction_nonpos (l : List Customer) : contraction l ≤ 0 := by
  unfold contraction
  apply q_sum_nonpos
  intro x hx
  rcases List.mem_map.mp hx with ⟨c, hc, rfl⟩
  have hm := (List.mem_filter.mp hc).2
  exact le_of_lt (of_decide_eq_true hm).1

/-- Expansion is never negative: it only sums strictly positive deltas. -/
theorem expansion_nonneg (l : List Customer) : 0 ≤ expansion l := by
  unfold expansion
  apply List.sum_nonneg
  intro x hx
  rcases List.mem_map.mp hx with ⟨c, hc, rfl⟩
  have hm := (List.mem_filter.mp hc).2
  exact le_of_lt (of_decide_eq_true hm).1

/-- New-customer revenue is never negative. -/
theorem new_customers_nonneg (l : List Customer) : 0 ≤ new_customers l := by
  unfold new_customers
  apply List.sum_nonneg
  intro x hx
  rcases List.mem_map.mp hx with ⟨c, hc, rfl⟩
  have hm := (List.mem_filter.mp hc).2
  exact le_of_lt (of_decide_eq_true hm).2

/-- With non-negative opening revenues the opening total is non-negative. -/
theorem opening_nonneg (l : List Customer) (h : ∀ c ∈ l, 0 ≤ c.q1) :
    0 ≤ opening_revenue l := by
  unfold opening_revenue
  apply List.sum_nonneg
  intro x hx
  rcases List.mem_map.mp hx with ⟨c, hc, rfl⟩
  exact h c hc

/-- Away from the singular point, NRR exceeds GRR by exactly the expansion
share of opening revenue. -/
theorem nrr_sub_grr (l : List Customer) (h0 : opening_revenue l ≠ 0) :
    nrr l - grr l = expansion l / opening_revenue l := by
  rw [nrr, grr, if_pos h0, if_pos h0, div_sub_div_same]
  congr 1
  ring

/-- Two distinct elements of a duplicate-free list cannot occur both in the
order `[a, b]` and in the order `[b, a]`. -/
theorem sublist_pair_asymm {α : Type} {a b : α} (hab : a ≠ b) :
    ∀ {L : List α}, L.Nodup → List.Sublist [a, b] L → List.Sublist [b, a] L → False := by
  intro L
  induction L with
  | nil => intro _ h1 _; simp at h1
  | cons c L ih =>
    intro hnd h1 h2
    cases h1 with
    | cons _ h1' =>
      cases h2 with
      | cons _ h2' => exact ih hnd.of_cons h1' h2'
      | cons₂ _ h2' =>
        have hbL : b ∈ L := h1'.subset (by simp)
        exact (List.nodup_cons.mp hnd).1 hbL
    | cons₂ _ h1' =>
      cases h2 with
      | cons _ h2' =>
        have haL : a ∈ L := h2'.subset (by simp)
        exact (List.nodup_cons.mp hnd).1 haL
      | cons₂ _ h2' => exact hab rfl

/-- Stability of a filter-sort-truncate ranking: two tied elements of the
input survive filtering in input order in the sorted list, and the
truncated ranking never shows them reversed. -/
theorem stable_top_spec (le : Customer → Customer → Bool)
    (htrans : ∀ x y z, le x y → le y z → le x z)
    (htotal : ∀ x y, le x y || le y x)
    (p : Customer → Bool) (l : List Customer) (a b : Customer)
    (hnd : l.Nodup) (hab : a ≠ b) (hs : List.Sublist [a, b] l)
    (hpa : p a = true) (hpb : p b = true) (hle : le a b = true) :
    List.Sublist [a, b] ((l.filter p).mergeSort le) ∧
      ¬List.Sublist [b, a] (((l.filter p).mergeSort le).take 5) := by
  have hf : List.Sublist [a, b] (l.filter p) := by
    have h := hs.filter p
    simpa [List.filter_cons, hpa, hpb] using h
  have hsorted : List.Sublist [a, b] ((l.filter p).mergeSort le) :=
    List.pair_sublist_mergeSort htrans htotal hle hf
  refine ⟨hsorted, ?_⟩
  intro hrev
  have hrev' : List.Sublist [b, a] ((l.filter p).mergeSort le) :=
    hrev.trans (List.take_sublist 5 _)
  have hnd' : ((l.filter p).mergeSort le).Nodup :=
    ((List.mergeSort_perm (l.filter p) le).nodup_iff).mpr (hnd.filter p)
  exact sublist_pair_asymm hab hnd' hsorted hrev'

/-- The descending-delta comparison is transitive. -/
theorem expansionGE_trans :
    ∀ x y z : Customer, expansionGE x y → expansionGE y z → expansionGE x z := by
  intro x y z hxy hyz
  simp only [expansionGE, decide_eq_true_eq] at hxy hyz ⊢
  linarith

/-- The descending-delta comparison is total. -/
theorem expansionGE_total : ∀ x y : Customer, expansionGE x y || expansionGE y x := by
  intro x y
  simp only [expansionGE]
  rcases le_total (y.q2 - y.q1) (x.q2 - x.q1) with h | h <;> simp [h]

/-- The ascending-delta comparison is transitive. -/
theorem contractionLE_trans :
    ∀ x y z : Customer, contractionLE x y → contractionLE y z → contractionLE x z := by
  intro x y z hxy hyz
  simp only [contractionLE, decide_eq_true_eq] at hxy hyz ⊢
  linarith

/-- The ascending-delta comparison is total. -/
theorem contractionLE_total : ∀ x y : Customer, contractionLE x y || contractionLE y x := by
  intro x y
  simp only [contractionLE]
  rcases le_total (x.q2 - x.q1) (y.q2 - y.q1) with h | h <;> simp [h]

/-- Group keys are duplicate-free: each customer id yields one grouped row. -/
theorem groupKeys_nodup (rows : List Row) : (groupKeys rows).Nodup :=
  (List.perm_insertionSort _ _).nodup_iff.mpr (List.nodup_dedup _)

/-- Per-customer Q1 totals only depend on the multiset of rows. -/
theorem totalQ1_perm (rows₁ rows₂ : List Row) (hperm : List.Perm rows₁ rows₂)
    (k : String) : totalQ1 rows₁ k = totalQ1 rows₂ k :=
  (((hperm.filter validRow).filter _).map rowQ1).sum_eq

/-- Per-customer Q2 totals only depend on the multiset of rows. -/
theorem totalQ2_perm (rows₁ rows₂ : List Row) (hperm : List.Perm rows₁ rows₂)
    (k : String) : totalQ2 rows₁ k = totalQ2 rows₂ k :=
  (((hperm.filter validRow).filter _).map rowQ2).sum_eq

/-- The sorted key list only depends on the multiset of rows. -/
theorem groupKeys_perm (rows₁ rows₂ : List Row) (hperm : List.Perm rows₁ rows₂) :
    groupKeys rows₁ = groupKeys rows₂ := by
  have hdedup : List.Perm ((rows₁.filter validRow).map rowKey).dedup
      ((rows₂.filter validRow).map rowKey).dedup :=
    ((hperm.filter validRow).map rowKey).dedup
  exact List.eq_of_perm_of_sorted
    (((List.perm_insertionSort _ _).trans hdedup).trans
      (List.perm_insertionSort _ _).symm)
    (List.sorted_insertionSort _ _) (List.sorted_insertionSort _ _)

/-- The whole grouped table only depends on the multiset of rows. -/
theorem grouped_perm (rows₁ rows₂ : List Row) (hperm : List.Perm rows₁ rows₂) :
    grouped rows₁ = grouped rows₂ := by
  unfold grouped
  rw [groupKeys_perm rows₁ rows₂ hperm]
  apply List.map_congr_left
  intro k _
  rw [totalQ1_perm rows₁ rows₂ hperm k, totalQ2_perm rows₁ rows₂ hperm k]

/-- C1: for every customer list with non-negative opening and closing
revenues, `opening_total + churn + expansion + contraction +
new_customer_revenue = closing_total`, exactly, over exact arithmetic. -/
theorem claim_C1_bridge_identity (l : List Customer)
    (h : ∀ c ∈ l, 0 ≤ c.q1 ∧ 0 ≤ c.q2) :
    opening_revenue l + churn l + expansion l + contraction l + new_customers l
      = closing_revenue l :=
  bridge_identity l h

/-- C1 witness: the identity evaluated on the spec's Example A. -/
theorem claim_C1_bridge_identity_witness :
    opening_revenue exampleA + churn exampleA + expansion exampleA + contraction exampleA
      + new_customers exampleA = closing_revenue exampleA :=
  claim_C1_bridge_identity exampleA (by decide)

/-- C2: the segment assigned by `categorize_customer` is exactly the spec's
first-match priority evaluation of the five rules, and every customer maps
to exactly one segment. -/
theorem claim_C2_classification (c : Customer) :
    categorize_customer c = classify_spec c.q1 c.q2 ∧
      ∃! s : Segment, categorize_customer c = s := by
  constructor
  · unfold categorize_customer classify_spec
    simp only [sub_pos, sub_neg]
  · exact ⟨categorize_customer c, rfl, fun s hs => hs.symm⟩

/-- C2 witness: the classification agreement evaluated on a concrete customer. -/
theorem claim_C2_classification_witness :
    categorize_customer ⟨"A", 100, 0⟩ = classify_spec 100 0 ∧
      ∃! s : Segment, categorize_customer ⟨"A", 100, 0⟩ = s :=
  claim_C2_classification ⟨"A", 100, 0⟩

/-- C3: on Example A the engine returns exactly the aggregates, ratios and
segments the spec lists. -/
theorem claim_C3_exampleA :
    opening_revenue exampleA = 400 ∧ closing_revenue exampleA = 380 ∧
    churn exampleA = -100 ∧ new_customers exampleA = 50 ∧
    expansion exampleA = 50 ∧ contraction exampleA = -20 ∧
    net_change exampleA = -20 ∧ nrr exampleA = 0.825 ∧ grr exampleA = 0.7 ∧
    categorize_customer ⟨"A", 100, 0⟩ = .Churned ∧
    categorize_customer ⟨"B", 0, 50⟩ = .NewCustomer ∧
    categorize_customer ⟨"C", 100, 150⟩ = .Expansion ∧
    categorize_customer ⟨"D", 100, 80⟩ = .Contraction ∧
    categorize_customer ⟨"E", 100, 100⟩ = .Stable := by
  refine ⟨?_, ?_, ?_, ?_, ?_, ?_, ?_, ?_, ?_, ?_, ?_, ?_, ?_, ?_⟩ <;>
    first
      | decide
      | norm_num [opening_revenue, closing_revenue, churn, new_customers, expansion,
          contraction, net_change, nrr, grr, categorize_customer, exampleA, List.filter]

/-- C4: with non-negative revenues, `churn ≤ 0`, `contraction ≤ 0`,
`expansion ≥ 0`, `new_customer_revenue ≥ 0` (the sign constraints in fact
hold for any input, since each sum is filtered on the sign of its terms). -/
theorem claim_C4_sign_invariants (l : List Customer)
    (h : ∀ c ∈ l, 0 ≤ c.q1 ∧ 0 ≤ c.q2) :
    churn l ≤ 0 ∧ contraction l ≤ 0 ∧ 0 ≤ expansion l ∧ 0 ≤ new_customers l :=
  ⟨churn_nonpos l, contraction_nonpos l, expansion_nonneg l, new_customers_nonneg l⟩

/-- C4 witness: the sign invariants evaluated on Example A. -/
theorem claim_C4_sign_invariants_witness :
    churn exampleA ≤ 0 ∧ contraction exampleA ≤ 0 ∧ 0 ≤ expansion exampleA ∧
      0 ≤ new_customers exampleA :=
  claim_C4_sign_invariants exampleA (by decide)

/-- C5: whenever the opening total is zero (in particular on the empty
input) both retention ratios are exactly 0; no division is performed. -/
theorem claim_C5_zero_opening (l : List Customer) (h : opening_revenue l = 0) :
    nrr l = 0 ∧ grr l = 0 := by
  constructor <;> simp [nrr, grr, h]

/-- C5 witness: the empty customer list. -/
theorem claim_C5_zero_opening_witness : nrr ([] : List Customer) = 0 ∧ grr [] = 0 :=
  claim_C5_zero_opening [] rfl

/-- C6: `Change_Pct` is exactly 0 for a customer with zero opening revenue,
whatever its closing revenue, and equals `(closing - opening)/opening * 100`
otherwise. -/
theorem claim_C6_change_pct (c : Customer) :
    (c.q1 = 0 → change_pct c = 0) ∧
      (c.q1 ≠ 0 → change_pct c = (c.q2 - c.q1) / c.q1 * 100) := by
  constructor <;> intro h <;> simp [change_pct, h]

/-- C6 witness: both branches evaluated on concrete customers. -/
theorem claim_C6_change_pct_witness :
    change_pct ⟨"B", 0, 50⟩ = 0 ∧
      change_pct ⟨"C", 100, 150⟩ = ((150 : ℚ) - 100) / 100 * 100 :=
  ⟨(claim_C6_change_pct ⟨"B", 0, 50⟩).1 rfl,
    (claim_C6_change_pct ⟨"C", 100, 150⟩).2 (by norm_num)⟩

/-- C7 counterexample: on the single customer `(q1 = -5, q2 = 0)` — a
negative opening revenue — every bridge component is 0 (the customer
matches no component's filter: churn and expansion require `q1 > 0`,
new-customer requires `q1 == 0`, contraction requires `q2 > 0`), so
`opening + churn + expansion + contraction + new = -5 ≠ 0 = closing`:
the aggregate identity does NOT survive negative revenues. -/
theorem claim_C7_counterexample :
    ¬(opening_revenue [(⟨"X", -5, 0⟩ : Customer)] + churn [⟨"X", -5, 0⟩]
      + expansion [⟨"X", -5, 0⟩] + contraction [⟨"X", -5, 0⟩]
      + new_customers [⟨"X", -5, 0⟩] = closing_revenue [⟨"X", -5, 0⟩]) := by
  norm_num [opening_revenue, churn, expansion, contraction, new_customers,
    closing_revenue, List.filter]

/-- C7 amended: the aggregate identity holds per customer exactly when that
customer's revenues are non-negative; a negative revenue can break it. -/
theorem claim_C7_amended (c : Customer) (h1 : 0 ≤ c.q1) (h2 : 0 ≤ c.q2) :
    opening_revenue [c] + churn [c] + expansion [c] + contraction [c]
      + new_customers [c] = closing_revenue [c] :=
  bridge_identity [c] (by
    intro x hx
    rw [List.mem_singleton] at hx
    subst hx
    exact ⟨h1, h2⟩)

/-- C7 amended witness: the single-customer identity at `(100, 150)`. -/
theorem claim_C7_amended_witness :
    opening_revenue [(⟨"C", 100, 150⟩ : Customer)] + churn [⟨"C", 100, 150⟩]
      + expansion [⟨"C", 100, 150⟩] + contraction [⟨"C", 100, 150⟩]
      + new_customers [⟨"C", 100, 150⟩] = closing_revenue [⟨"C", 100, 150⟩] :=
  claim_C7_amended ⟨"C", 100, 150⟩ (by norm_num) (by norm_num)

/-- C8: two distinct customers tied on a positive delta (both classified
Expansion) appear in the full descending ranking in input order, and the
truncated `top_expansion_customers` (K = 5) never lists them reversed;
symmetrically for `top_contraction_customers` on tied negative deltas. -/
theorem claim_C8_ranking_stability (l : List Customer) (a b : Customer)
    (hnd : l.Nodup) (hab : a ≠ b) (hs : List.Sublist [a, b] l)
    (hd : a.q2 - a.q1 = b.q2 - b.q1) :
    (0 < a.q2 - a.q1 → 0 < a.q1 → 0 < b.q1 →
      List.Sublist [a, b]
          ((l.filter (fun c => decide (0 < c.q2 - c.q1 ∧ 0 < c.q1))).mergeSort
            expansionGE) ∧
        ¬List.Sublist [b, a] (top_expansion_customers l)) ∧
    (a.q2 - a.q1 < 0 → 0 < a.q2 → 0 < b.q2 →
      List.Sublist [a, b]
          ((l.filter (fun c => decide (c.q2 - c.q1 < 0 ∧ 0 < c.q2))).mergeSort
            contractionLE) ∧
        ¬List.Sublist [b, a] (top_contraction_customers l)) := by
  constructor
  · intro h1 h2 h3
    exact stable_top_spec expansionGE expansionGE_trans expansionGE_total
      (fun c => decide (0 < c.q2 - c.q1 ∧ 0 < c.q1)) l a b hnd hab hs
      (decide_eq_true ⟨h1, h2⟩)
      (decide_eq_true ⟨by rw [← hd]; exact h1, h3⟩)
      (decide_eq_true (le_of_eq hd.symm))
  · intro h1 h2 h3
    exact stable_top_spec contractionLE contractionLE_trans contractionLE_total
      (fun c => decide (c.q2 - c.q1 < 0 ∧ 0 < c.q2)) l a b hnd hab hs
      (decide_eq_true ⟨h1, h2⟩)
      (decide_eq_true ⟨by rw [← hd]; exact h1, h3⟩)
      (decide_eq_true (le_of_eq hd))

/-- C8 witness: two customers tied on delta 50; the ranking keeps them in
input order. -/
theorem claim_C8_ranking_stability_witness :
    List.Sublist [(⟨"P", 100, 150⟩ : Customer), ⟨"Q", 100, 150⟩]
        (([(⟨"P", 100, 150⟩ : Customer), ⟨"Q", 100, 150⟩].filter
            (fun c => decide (0 < c.q2 - c.q1 ∧ 0 < c.q1))).mergeSort expansionGE) ∧
      ¬List.Sublist [(⟨"Q", 100, 150⟩ : Customer), ⟨"P", 100, 150⟩]
        (top_expansion_customers [⟨"P", 100, 150⟩, ⟨"Q", 100, 150⟩]) :=
  (claim_C8_ranking_stability [⟨"P", 100, 150⟩, ⟨"Q", 100, 150⟩] ⟨"P", 100, 150⟩
      ⟨"Q", 100, 150⟩ (by decide) (by decide) (List.Sublist.refl _) rfl).1
    (by norm_num) (by norm_num) (by norm_num)

/-- C9: the aggregation drops null/blank-id rows, coerces non-numeric cells
to 0, sums all rows sharing a customer id into one per-customer total
(each id appears once: the key list is duplicate-free), and the
per-customer totals, the grouped table and every bridge aggregate are
invariant under any permutation of the input rows. -/
theorem claim_C9_aggregation (rows₁ rows₂ : List Row)
    (hperm : List.Perm rows₁ rows₂) :
    (groupKeys rows₁).Nodup ∧
      (∀ k, totalQ1 rows₁ k = totalQ1 rows₂ k ∧ totalQ2 rows₁ k = totalQ2 rows₂ k) ∧
      grouped rows₁ = grouped rows₂ ∧
      opening_revenue (grouped rows₁) = opening_revenue (grouped rows₂) ∧
      closing_revenue (grouped rows₁) = closing_revenue (grouped rows₂) ∧
      churn (grouped rows₁) = churn (grouped rows₂) ∧
      new_customers (grouped rows₁) = new_customers (grouped rows₂) ∧
      expansion (grouped rows₁) = expansion (grouped rows₂) ∧
      contraction (grouped rows₁) = contraction (grouped rows₂) ∧
      nrr (grouped rows₁) = nrr (grouped rows₂) ∧
      grr (grouped rows₁) = grr (grouped rows₂) := by
  have hg := grouped_perm rows₁ rows₂ hperm
  exact ⟨groupKeys_nodup rows₁,
    fun k => ⟨totalQ1_perm rows₁ rows₂ hperm k, totalQ2_perm rows₁ rows₂ hperm k⟩,
    hg, by rw [hg], by rw [hg], by rw [hg], by rw [hg], by rw [hg], by rw [hg],
    by rw [hg], by rw [hg]⟩

/-- C9 witness: swapping the two `acme` rows changes neither the summed
`acme` totals nor the grouped table. -/
theorem claim_C9_aggregation_witness :
    totalQ1 exampleRows "acme" = totalQ1 exampleRowsSwapped "acme" ∧
      grouped exampleRows = grouped exampleRowsSwapped :=
  ⟨((claim_C9_aggregation exampleRows exampleRowsSwapped
        (List.Perm.swap _ _ _)).2.1 "acme").1,
    (claim_C9_aggregation exampleRows exampleRowsSwapped
        (List.Perm.swap _ _ _)).2.2.1⟩

/-- C10: with non-negative revenues, NRR and GRR differ by exactly
`expansion / opening_total` away from the singular point, are both 0 at it,
and NRR is never below GRR. -/
theorem claim_C10_nrr_grr (l : List Customer)
    (h : ∀ c ∈ l, 0 ≤ c.q1 ∧ 0 ≤ c.q2) :
    (opening_revenue l ≠ 0 → nrr l - grr l = expansion l / opening_revenue l) ∧
      (opening_revenue l = 0 → nrr l = 0 ∧ grr l = 0) ∧ grr l ≤ nrr l := by
  have hop : 0 ≤ opening_revenue l := opening_nonneg l (fun c hc => (h c hc).1)
  refine ⟨nrr_sub_grr l, ?_, ?_⟩
  · intro h0
    constructor <;> simp [nrr, grr, h0]
  · by_cases h0 : opening_revenue l = 0
    · simp [nrr, grr, h0]
    · have hpos : 0 < opening_revenue l := lt_of_le_of_ne hop (Ne.symm h0)
      have hdiv : 0 ≤ expansion l / opening_revenue l :=
        div_nonneg (expansion_nonneg l) (le_of_lt hpos)
      have hsub := nrr_sub_grr l h0
      linarith

/-- C10 witness: the ratio relations evaluated on Example A. -/
theorem claim_C10_nrr_grr_witness :
    (opening_revenue exampleA ≠ 0 →
      nrr exampleA - grr exampleA = expansion exampleA / opening_revenue exampleA) ∧
      (opening_revenue exampleA = 0 → nrr exampleA = 0 ∧ grr exampleA = 0) ∧
      grr exampleA ≤ nrr exampleA :=
  claim_C10_nrr_grr exampleA (by decide)
